import Mathlib

/-!
Verification of the text-pii-masking repository.

Shallow embedding of the detect-then-mask pipeline:
- `src/src/masking.py`: `get_pii_identification_system_prompt`,
  `get_pii_extraction_instruct_prompt`, `parse_json_response`,
  the pure validation/prompt part of `extract_pii`, and `mask_pii`;
- `src/models.py`: `create_dynamic_pii_config`;
- `src/app.py`: the pure validation part of the `mask_pii_endpoint` handler.

Texts are modelled as `List Char`.  Python dictionaries with string keys are
modelled as association lists (`dictGet` models `dict.get`, returning `none`
for a missing key; a Python entry whose value is `None` is observationally
identical through `.get` to a missing entry, so both are modelled as a
missing key).  Python functions that may raise are modelled in
`Except String`.  Whitespace predicates are modelled over the ASCII
whitespace characters, which is what every input exercised here uses.
-/

set_option maxRecDepth 8000

namespace PiiMasking

/-- ASCII whitespace, modelling the characters stripped by Python's
`str.strip` and matched by the regex class `\\s` on the inputs in scope. -/
def isPySpace (ch : Char) : Bool :=
  ch = ' ' || ch = '\t' || ch = '\n' || ch = '\r' || ch = Char.ofNat 11 || ch = Char.ofNat 12

/-- Python `str.strip()`: drop leading and trailing whitespace. -/
def pyStrip (s : List Char) : List Char :=
  ((s.dropWhile isPySpace).reverse.dropWhile isPySpace).reverse

/-- Python `dict.get(k)` on a string-keyed dictionary modelled as an
association list. -/
def dictGet {α : Type} (d : List (String × α)) (k : String) : Option α :=
  match d with
  | [] => none
  | (k2, v) :: rest => if k2 = k then some v else dictGet rest k

/-- Python `s.replace(p, m)` for a non-empty pattern `c :: cs`: scan left to
right; wherever the pattern is a prefix of the remaining text emit the
replacement and skip the pattern, otherwise emit one character and continue.
This is Python's leftmost, non-overlapping, replace-all semantics. -/
def pyReplaceNE (c : Char) (cs m : List Char) : List Char → List Char
  | [] => []
  | a :: s =>
    if (c :: cs).isPrefixOf (a :: s) then
      m ++ pyReplaceNE c cs m (s.drop cs.length)
    else
      a :: pyReplaceNE c cs m s
termination_by s => s.length
decreasing_by
  · simp; omega
  · simp

/-- Python `s.replace(p, m)`.  For an empty pattern Python inserts the
replacement at every character boundary (`"ab".replace("", "-") = "-a-b-"`);
`mask_pii` never reaches that case because it skips findings with an empty
`pii`, but the model keeps `str.replace`'s full behaviour. -/
def pyReplace (p m s : List Char) : List Char :=
  match p with
  | [] => m ++ s.foldr (fun ch acc => ch :: (m ++ acc)) []
  | c :: cs => pyReplaceNE c cs m s

/-- The greedy leftmost split of a text along a non-empty pattern:
the maximal pattern-free pieces between consecutive (non-overlapping,
leftmost) occurrences of the pattern.  Auxiliary device used to state that
`pyReplaceNE` replaces every occurrence. -/
def pySplit (c : Char) (cs : List Char) : List Char → List (List Char)
  | [] => [[]]
  | a :: s =>
    if (c :: cs).isPrefixOf (a :: s) then
      [] :: pySplit c cs (s.drop cs.length)
    else
      match pySplit c cs s with
      | [] => [[a]]
      | piece :: rest => (a :: piece) :: rest
termination_by s => s.length
decreasing_by
  · simp; omega
  · simp

/-- Whether `p` occurs as a contiguous substring of `s`. -/
def containsSeq (p : List Char) : List Char → Bool
  | [] => p.isEmpty
  | a :: s => p.isPrefixOf (a :: s) || containsSeq p s

/-- One field of a pydantic configuration model: its `json_schema_extra`,
which is `None` when the field declares no extras (pydantic's default, as
in the `NoMaskConfig` fixture of the repository's tests) and a dictionary
otherwise.  `create_dynamic_pii_config` always builds the dictionary
holding the key `"mask"`, but `mask_pii` accepts any configuration model,
so both shapes are representable. -/
structure FieldInfo where
  json_schema_extra : Option (List (String × String))
deriving DecidableEq

/-- The `model_fields` of a dynamically created PII configuration model:
an ordered mapping from category name to its field information. -/
abbrev Config := List (String × FieldInfo)

/-- `models.create_dynamic_pii_config`: build the dynamic model whose fields
are exactly the supplied category names, each carrying its mask string in
`json_schema_extra`.  The Python body (a dict comprehension plus
`create_model`) raises on none of the inputs in scope, including the empty
mapping, so the result is always `Except.ok`. -/
def create_dynamic_pii_config (pii_config_dict : List (String × String)) :
    Except String Config :=
  .ok (pii_config_dict.map (fun p => (p.1, ⟨some [("mask", p.2)]⟩)))

/-- The apostrophe character, written by code point to keep the source
free of quote-literals. -/
def singleQuote : Char := Char.ofNat 39

/-- `masking.get_pii_identification_system_prompt`: the fixed system
instruction. -/
def get_pii_identification_system_prompt : List Char :=
  ("You are an expert at identifying PII in text. " ++
   "You can accurately detect PII from context and classify it correctly. " ++
   "When uncertain, mask the content rather than risk PII exposure.").toList

/-- `masking.get_pii_extraction_instruct_prompt`: the user instruction,
mirroring the six concatenated pieces of the Python f-string (the
apostrophes of the source are spliced in as `singleQuote`). -/
def get_pii_extraction_instruct_prompt (text types_str : List Char) : List Char :=
  "Extract all substrings from the text below that are personal identifiable information ".toList
  ++ ("of the following types: ".toList ++ types_str ++ ". ".toList)
  ++ "For each detected item, output a valid JSON array of objects with two keys:\n".toList
  ++ ("  - ".toList ++ [singleQuote] ++ "pii".toList ++ [singleQuote]
      ++ ": the exact substring detected\n".toList)
  ++ ("  - ".toList ++ [singleQuote] ++ "type".toList ++ [singleQuote]
      ++ ": the PII type (must match one of: ".toList ++ types_str ++ ")\n\n".toList)
  ++ ("Text: ".toList ++ [singleQuote] ++ text ++ [singleQuote])

/-- The system/user instruction pair sent to the completion provider. -/
structure ChatMessages where
  system : List Char
  user : List Char

/-- The pure prefix of `masking.extract_pii` (src/src/masking.py lines
113-131): read the category names off the configuration model, fail when
there are none, otherwise comma-join them and build the two prompts that
the provider call sends. -/
def extract_pii_prep (text : List Char) (config_fields : Config) :
    Except String ChatMessages :=
  let pii_types := config_fields.map Prod.fst
  if pii_types.isEmpty then .error "No PII types defined in configuration"
  else
    let types_str := List.intercalate ", ".toList (pii_types.map String.toList)
    .ok ⟨get_pii_identification_system_prompt,
         get_pii_extraction_instruct_prompt text types_str⟩

/-- The pure validation prefix of the `/mask-pii` handler (src/app.py lines
48-66): reject an empty configuration, an empty text list, or a
whitespace-only text, then build the dynamic configuration model. -/
def mask_pii_endpoint_prep (texts : List (List Char))
    (pii_config : List (String × String)) : Except String Config :=
  if pii_config.isEmpty then .error "PII configuration cannot be empty"
  else if texts.isEmpty then .error "Input texts cannot be empty"
  else if !(texts.all (fun t => !(pyStrip t).isEmpty)) then
    .error "Input texts cannot be empty strings or whitespace only"
  else create_dynamic_pii_config pii_config

/-- One element of the `extracted_pii` list handed to `mask_pii`: either a
string-keyed dictionary, or a value that is not a dictionary at all (on
which Python's `.get` attribute lookup raises `AttributeError`). -/
inductive PyEntry where
  | dict (fields : List (String × String))
  | nonDict (tag : String)
deriving DecidableEq

/-- The body of one iteration of the `for pii in extracted_pii` loop of
`mask_pii` (src/src/masking.py lines 172-185), acting on the accumulating
`masked_text`:
- a non-dictionary entry raises (`.get` on it is an `AttributeError`,
  re-raised by the handler at lines 189-191);
- `pii.get("type")` / `pii.get("pii")`: a missing key or empty-string value
  is falsy, so the entry is skipped with a warning (lines 176-178);
- a `type` that is not a key of `config_fields` is skipped (line 180);
- `json_schema_extra.get("mask")` (line 181): when the field declares no
  extras at all, `json_schema_extra` is `None` and the attribute lookup
  `.get` on it raises `AttributeError`, re-raised by the handler at lines
  189-191; when the extras dictionary lacks `"mask"` or maps it to the
  empty string, the falsy mask makes the entry be skipped with a warning
  (lines 182-185);
- otherwise `masked_text = masked_text.replace(pii_value, mask)`. -/
def maskStep (config_fields : Config) (masked_text : List Char) (e : PyEntry) :
    Except String (List Char) :=
  match e with
  | .nonDict tag => .error ("AttributeError: finding is not a dict: " ++ tag)
  | .dict f =>
    match dictGet f "type", dictGet f "pii" with
    | some t, some v =>
      if v.isEmpty || t.isEmpty then .ok masked_text
      else
        match dictGet config_fields t with
        | none => .ok masked_text
        | some fi =>
          match fi.json_schema_extra with
          | none => .error "AttributeError: NoneType object has no attribute get"
          | some extra =>
            match dictGet extra "mask" with
            | none => .ok masked_text
            | some mk =>
              if mk.isEmpty then .ok masked_text
              else .ok (pyReplace v.toList mk.toList masked_text)
    | _, _ => .ok masked_text

/-- `masking.mask_pii` (src/src/masking.py lines 148-191): fold the loop body
over the findings in list order, starting from the input text; the first
raising entry aborts the whole call (the `except` clause logs and
re-raises). -/
def mask_pii (input_text : List Char) (extracted_pii : List PyEntry)
    (config_fields : Config) : Except String (List Char) :=
  match extracted_pii with
  | [] => .ok input_text
  | e :: rest =>
    match maskStep config_fields input_text e with
    | .ok t => mask_pii t rest config_fields
    | .error msg => .error msg

/-! Response parsing (`masking.parse_json_response`, src/src/masking.py
lines 70-95): fence extraction modelling the search for the pattern
triple-backtick (?:json)? \s* lazy-capture triple-backtick, then JSON
decoding modelling Python's `json.loads`. -/

/-- The double-quote character. -/
def quoteChar : Char := Char.ofNat 34

/-- The backslash character. -/
def backslashChar : Char := Char.ofNat 92

/-- The backtick character, written by code point. -/
def tickChar : Char := Char.ofNat 96

/-- The opening-brace character, written by code point. -/
def lbraceChar : Char := Char.ofNat 123

/-- The closing-brace character, written by code point. -/
def rbraceChar : Char := Char.ofNat 125

/-- A triple-backtick code fence. -/
def fence3 : List Char := [tickChar, tickChar, tickChar]

/-- First occurrence of `pat` as a contiguous substring: returns the part
before the occurrence and the part after it. -/
def findSub (pat : List Char) : List Char → Option (List Char × List Char)
  | [] => if pat.isEmpty then some ([], []) else none
  | a :: s =>
    if pat.isPrefixOf (a :: s) then some ([], (a :: s).drop pat.length)
    else
      match findSub pat s with
      | some (pre, post) => some (a :: pre, post)
      | none => none

/-- The capture group of `re.search` with the fenced-block pattern of
`parse_json_response`.  The regex match, when it exists, always anchors at
the first triple-backtick: a match starting at a fence needs a later fence
occurrence at least three characters further on, and any such occurrence
serving a later fence would serve the first one too.  After the opening
fence the greedy optional `json` tag and greedy whitespace are consumed —
neither can contain a backtick, so consuming them never hides the closing
fence — and the lazy capture then runs to the earliest following fence. -/
def fenceExtract (s : List Char) : Option (List Char) :=
  match findSub fence3 s with
  | none => none
  | some (_, rest) =>
    let rest2 := if "json".toList.isPrefixOf rest then rest.drop 4 else rest
    let rest3 := rest2.dropWhile isPySpace
    match findSub fence3 rest3 with
    | none => none
    | some (captured, _) => some captured

/-- JSON whitespace as skipped by Python's `json` decoder: space, tab,
newline, carriage return. -/
def isJsonWs (ch : Char) : Bool :=
  ch = ' ' || ch = '\t' || ch = '\n' || ch = '\r'

/-- Skip JSON whitespace. -/
def skipWs (s : List Char) : List Char := s.dropWhile isJsonWs

/-- The values produced by Python's `json.loads`: null, booleans, numbers
(kept as their matched lexeme parts: sign, integer digits, optional
fraction digits, optional exponent sign and digits), strings, arrays,
objects (members kept in parse order), and the non-standard constants
`NaN`, `Infinity` and `-Infinity` that Python accepts by default. -/
inductive Json where
  | null
  | bool (b : Bool)
  | num (neg : Bool) (intPart : List Char) (fracPart : Option (List Char))
      (expPart : Option (Bool × List Char))
  | str (chars : List Char)
  | arr (elems : List Json)
  | obj (members : List (List Char × Json))
  | nan
  | inf (neg : Bool)

/-- Value of a hexadecimal digit. -/
def hexVal (ch : Char) : Option Nat :=
  if '0' ≤ ch ∧ ch ≤ '9' then some (ch.toNat - 48)
  else if 'a' ≤ ch ∧ ch ≤ 'f' then some (ch.toNat - 87)
  else if 'A' ≤ ch ∧ ch ≤ 'F' then some (ch.toNat - 55)
  else none

/-- Body of a JSON string after the opening quote, per Python's strict
`scanstring`: literal characters (control characters below 0x20 rejected),
the eight simple escapes, and `\\uXXXX` escapes with surrogate-pair
combination.  A `\\uXXXX` lone surrogate, which Python would keep as an
unpaired code unit, has no `Char` counterpart and is modelled as a parse
failure; no input in scope contains one.  The fuel argument is called with
`length + 1`, which the one-character-per-step recursion never exhausts. -/
def parseStringBody : Nat → List Char → Option (List Char × List Char)
  | 0, _ => none
  | Nat.succ fuel, s =>
    match s with
    | [] => none
    | ch :: rest =>
      if ch = quoteChar then some ([], rest)
      else if ch = backslashChar then
        match rest with
        | [] => none
        | e :: rest2 =>
          let simple : Option Char :=
            if e = quoteChar then some quoteChar
            else if e = backslashChar then some backslashChar
            else if e = '/' then some '/'
            else if e = 'b' then some (Char.ofNat 8)
            else if e = 'f' then some (Char.ofNat 12)
            else if e = 'n' then some '\n'
            else if e = 'r' then some '\r'
            else if e = 't' then some '\t'
            else none
          match simple with
          | some d => (parseStringBody fuel rest2).map (fun p => (d :: p.1, p.2))
          | none =>
            if e = 'u' then
              match rest2 with
              | h1 :: h2 :: h3 :: h4 :: rest3 =>
                match hexVal h1, hexVal h2, hexVal h3, hexVal h4 with
                | some x1, some x2, some x3, some x4 =>
                  let n := ((x1 * 16 + x2) * 16 + x3) * 16 + x4
                  if 0xD800 ≤ n ∧ n ≤ 0xDBFF then
                    match rest3 with
                    | b1 :: u1 :: g1 :: g2 :: g3 :: g4 :: rest4 =>
                      if b1 = backslashChar ∧ u1 = 'u' then
                        match hexVal g1, hexVal g2, hexVal g3, hexVal g4 with
                        | some y1, some y2, some y3, some y4 =>
                          let m := ((y1 * 16 + y2) * 16 + y3) * 16 + y4
                          if 0xDC00 ≤ m ∧ m ≤ 0xDFFF then
                            let cp := 0x10000 + (n - 0xD800) * 0x400 + (m - 0xDC00)
                            (parseStringBody fuel rest4).map
                              (fun p => (Char.ofNat cp :: p.1, p.2))
                          else none
                        | _, _, _, _ => none
                      else none
                    | _ => none
                  else if 0xDC00 ≤ n ∧ n ≤ 0xDFFF then none
                  else
                    (parseStringBody fuel rest3).map
                      (fun p => (Char.ofNat n :: p.1, p.2))
                | _, _, _, _ => none
              | _ => none
            else none
      else if ch.toNat < 32 then none
      else (parseStringBody fuel rest).map (fun p => (ch :: p.1, p.2))

/-- Longest run of decimal digits. -/
def spanDigits (s : List Char) : List Char × List Char := s.span Char.isDigit

/-- Optional fraction and exponent of a JSON number lexeme, per the
decoder's number pattern: `(\.\d+)?([eE][-+]?\d+)?`; an incomplete
fraction or exponent is simply not part of the number. -/
def parseFracExp (neg : Bool) (ip : List Char) (s : List Char) :
    Json × List Char :=
  let fr :=
    match s with
    | ch :: r =>
      if ch = '.' then
        let p := spanDigits r
        if p.1.isEmpty then ((none : Option (List Char)), s) else (some p.1, p.2)
      else (none, s)
    | [] => (none, s)
  let ex :=
    match fr.2 with
    | ch :: r =>
      if ch = 'e' ∨ ch = 'E' then
        let sgn :=
          match r with
          | c2 :: rr =>
            if c2 = '+' then (false, rr)
            else if c2 = '-' then (true, rr)
            else (false, r)
          | [] => (false, r)
        let p := spanDigits sgn.2
        if p.1.isEmpty then ((none : Option (Bool × List Char)), fr.2)
        else (some (sgn.1, p.1), p.2)
      else (none, fr.2)
    | [] => (none, fr.2)
  (Json.num neg ip fr.1 ex.1, ex.2)

/-- A JSON number at the head of the input, per the decoder's pattern
`(-?(?:0|[1-9]\d*))(\.\d+)?([eE][-+]?\d+)?`. -/
def parseNumber (s : List Char) : Option (Json × List Char) :=
  let hd :=
    match s with
    | ch :: r => if ch = '-' then (true, r) else (false, s)
    | [] => (false, s)
  match hd.2 with
  | [] => none
  | ch :: r =>
    if ch = '0' then some (parseFracExp hd.1 ['0'] r)
    else if ch.isDigit then
      let p := spanDigits r
      some (parseFracExp hd.1 (ch :: p.1) p.2)
    else none

/-- Parsing state of the JSON decoder: a value, the inside of an array
just after `[` and whitespace, the continuation of an array after a parsed
element, the inside of an object just after the opening brace and
whitespace, and the member list of a non-empty object. -/
inductive PMode where
  | val
  | arrRest
  | arrMore (acc : List Json)
  | objRest
  | objMem (acc : List (List Char × Json))

/-- Python's `json` recursive-descent decoder over the grammar it accepts:
strings, objects, arrays, `null`/`true`/`false`, numbers, and the
constants `NaN`/`Infinity`/`-Infinity` (tried after the number pattern,
as in the scanner).  Structurally recursive on a fuel argument that every
call decrements; at least one input character is consumed for every two
decrements, so the fuel supplied by `jsonLoads` is never exhausted. -/
def parseJ : Nat → PMode → List Char → Option (Json × List Char)
  | 0, _, _ => none
  | Nat.succ fuel, mode, s =>
    match mode with
    | .val =>
      match s with
      | [] => none
      | ch :: rest =>
        if ch = quoteChar then
          (parseStringBody (rest.length + 1) rest).map
            (fun p => (Json.str p.1, p.2))
        else if ch = lbraceChar then parseJ fuel .objRest (skipWs rest)
        else if ch = '[' then parseJ fuel .arrRest (skipWs rest)
        else if "null".toList.isPrefixOf s then some (Json.null, s.drop 4)
        else if "true".toList.isPrefixOf s then some (Json.bool true, s.drop 4)
        else if "false".toList.isPrefixOf s then some (Json.bool false, s.drop 5)
        else
          match parseNumber s with
          | some p => some p
          | none =>
            if "NaN".toList.isPrefixOf s then some (Json.nan, s.drop 3)
            else if "Infinity".toList.isPrefixOf s then some (Json.inf false, s.drop 8)
            else if "-Infinity".toList.isPrefixOf s then some (Json.inf true, s.drop 9)
            else none
    | .arrRest =>
      match s with
      | [] => none
      | ch :: rest =>
        if ch = ']' then some (Json.arr [], rest)
        else
          match parseJ fuel .val s with
          | some (v, r) => parseJ fuel (.arrMore [v]) r
          | none => none
    | .arrMore acc =>
      match skipWs s with
      | [] => none
      | ch :: rest =>
        if ch = ']' then some (Json.arr acc.reverse, rest)
        else if ch = ',' then
          match parseJ fuel .val (skipWs rest) with
          | some (v, r) => parseJ fuel (.arrMore (v :: acc)) r
          | none => none
        else none
    | .objRest =>
      match s with
      | [] => none
      | ch :: _ =>
        if ch = rbraceChar then some (Json.obj [], s.drop 1)
        else parseJ fuel (.objMem []) s
    | .objMem acc =>
      match s with
      | [] => none
      | ch :: rest =>
        if ch = quoteChar then
          match parseStringBody (rest.length + 1) rest with
          | some (key, r1) =>
            match skipWs r1 with
            | [] => none
            | c2 :: r2 =>
              if c2 = ':' then
                match parseJ fuel .val (skipWs r2) with
                | some (v, r3) =>
                  match skipWs r3 with
                  | [] => none
                  | c3 :: r4 =>
                    if c3 = rbraceChar then
                      some (Json.obj ((key, v) :: acc).reverse, r4)
                    else if c3 = ',' then
                      parseJ fuel (.objMem ((key, v) :: acc)) (skipWs r4)
                    else none
                | none => none
              else none
          | none => none
        else none

/-- Python `json.loads`: skip leading whitespace, decode one value, skip
trailing whitespace, and require the input to be exhausted. -/
def jsonLoads (s : List Char) : Option Json :=
  match parseJ (2 * s.length + 8) PMode.val (skipWs s) with
  | some (v, rest) => if (skipWs rest).isEmpty then some v else none
  | none => none

/-- The string `parse_json_response` hands to `json.loads`: the trimmed
capture of the first fenced block when one exists, otherwise the trimmed
whole response (`match.group(1).strip() if match else response.strip()`). -/
def jsonTarget (response : List Char) : List Char :=
  match fenceExtract response with
  | some captured => pyStrip captured
  | none => pyStrip response

/-- `masking.parse_json_response` (src/src/masking.py lines 70-95): decode
the fence-extracted or whole trimmed response as JSON; a decoding failure
raises `ValueError` (the spec's `ParseError`). -/
def parse_json_response (response : List Char) : Except String Json :=
  match jsonLoads (jsonTarget response) with
  | some v => .ok v
  | none => .error "Invalid JSON response"

/-- Claim C7: for every input text and every schema, the Masking Engine
applied to an empty findings list returns the input text unchanged. -/
theorem mask_pii_empty_findings (input_text : List Char) (config_fields : Config) :
    mask_pii input_text [] config_fields = .ok input_text := rfl

/-- Splitting the findings list: the engine runs the first part, and on
success continues with the second part from the accumulated text. -/
theorem mask_pii_append (cfg : Config) (l1 l2 : List PyEntry) :
    ∀ input, mask_pii input (l1 ++ l2) cfg =
      match mask_pii input l1 cfg with
      | .ok t => mask_pii t l2 cfg
      | .error msg => .error msg := by
  induction l1 with
  | nil => intro input; simp [mask_pii]
  | cons e l1 ih =>
    intro input
    simp only [List.cons_append, mask_pii]
    cases maskStep cfg input e with
    | ok t => exact ih t
    | error msg => rfl

/-- Inserting an entry that every accumulated text skips does not change the
engine's result. -/
theorem mask_pii_insert_noop (cfg : Config) (e : PyEntry)
    (hstep : ∀ acc, maskStep cfg acc e = .ok acc)
    (input : List Char) (l1 l2 : List PyEntry) :
    mask_pii input (l1 ++ e :: l2) cfg = mask_pii input (l1 ++ l2) cfg := by
  rw [mask_pii_append, mask_pii_append]
  cases mask_pii input l1 cfg with
  | ok t => simp [mask_pii, hstep t]
  | error msg => rfl

/-- Claim C3: the code contradicts the claim.  On a pydantic schema entry
that declares no `json_schema_extra` at all — the shape a field takes when
no mask string is configured, and exactly the `NoMaskConfig` fixture whose
test `test_mask_pii_missing_mask_keeps_text` expects the text back
unchanged — `mask_pii` evaluates `None.get("mask")` and raises
`AttributeError`, re-raised by the handler, instead of skipping the
finding with a warning.  Evaluated here at the repository test's own
input. -/
theorem mask_pii_none_extras_raises :
    mask_pii "Contact me at alice@example.com".toList
      [PyEntry.dict [("pii", "alice@example.com"), ("type", "email")]]
      [("email", FieldInfo.mk none)] =
    .error "AttributeError: NoneType object has no attribute get" := rfl

/-- Claim C5: a malformed dictionary finding — missing `pii`, missing
`type`, an empty-string value for either, or an empty dictionary — is
ignored without raising, and wherever it sits in the findings list the
returned text is unchanged by it. -/
theorem mask_pii_ignores_malformed (cfg : Config)
    (f : List (String × String))
    (hmal : dictGet f "pii" = none ∨ dictGet f "pii" = some "" ∨
            dictGet f "type" = none ∨ dictGet f "type" = some "") :
    (∀ acc, maskStep cfg acc (PyEntry.dict f) = .ok acc) ∧
    ∀ input l1 l2, mask_pii input (l1 ++ PyEntry.dict f :: l2) cfg =
      mask_pii input (l1 ++ l2) cfg := by
  have he : ("" : String).isEmpty = true := rfl
  have hstep : ∀ acc, maskStep cfg acc (PyEntry.dict f) = .ok acc := by
    intro acc
    simp only [maskStep]
    rcases hmal with h | h | h | h
    · rw [h]; cases dictGet f "type" <;> rfl
    · rw [h]; cases dictGet f "type" <;> rfl
    · rw [h]
    · rw [h]
      cases dictGet f "pii" with
      | none => rfl
      | some v => cases hv : v.isEmpty <;> simp [hv, he]
  exact ⟨hstep, fun input l1 l2 => mask_pii_insert_noop cfg _ hstep input l1 l2⟩

/-- Witness for C5 at a concrete empty-dictionary finding. -/
theorem mask_pii_ignores_malformed_witness :
    (dictGet ([] : List (String × String)) "pii" = none ∨
     dictGet ([] : List (String × String)) "pii" = some "" ∨
     dictGet ([] : List (String × String)) "type" = none ∨
     dictGet ([] : List (String × String)) "type" = some "") ∧
    mask_pii "hello".toList [PyEntry.dict []]
      [("email", FieldInfo.mk (some [("mask", "[EMAIL]")]))] = .ok "hello".toList := by
  refine ⟨Or.inl (by decide), ?_⟩
  have h := (mask_pii_ignores_malformed
    [("email", FieldInfo.mk (some [("mask", "[EMAIL]")]))] [] (Or.inl (by decide))).2
    "hello".toList [] []
  simpa [mask_pii] using h

/-- Claim C6: a finding whose `type` (when present) is not a key of the
schema is skipped, and wherever it sits in the findings list the returned
text is unchanged by it. -/
theorem mask_pii_skips_unknown_type (cfg : Config)
    (f : List (String × String))
    (hunk : ∀ t, dictGet f "type" = some t → dictGet cfg t = none) :
    (∀ acc, maskStep cfg acc (PyEntry.dict f) = .ok acc) ∧
    ∀ input l1 l2, mask_pii input (l1 ++ PyEntry.dict f :: l2) cfg =
      mask_pii input (l1 ++ l2) cfg := by
  have hstep : ∀ acc, maskStep cfg acc (PyEntry.dict f) = .ok acc := by
    intro acc
    simp only [maskStep]
    cases ht : dictGet f "type" with
    | none => cases dictGet f "pii" <;> rfl
    | some t =>
      cases hv : dictGet f "pii" with
      | none => rfl
      | some v =>
        by_cases hve : v.isEmpty
        · simp [hve]
        · by_cases hte : t.isEmpty <;> simp [hve, hte, hunk t ht]
  exact ⟨hstep, fun input l1 l2 => mask_pii_insert_noop cfg _ hstep input l1 l2⟩

/-- Witness for C6 at a concrete schema and finding. -/
theorem mask_pii_skips_unknown_type_witness :
    (∀ t, dictGet [("pii", "a@x.com"), ("type", "ssn")] "type" = some t →
      dictGet [("email", FieldInfo.mk (some [("mask", "[EMAIL]")]))] t = none) ∧
    mask_pii "call a@x.com".toList
      [PyEntry.dict [("pii", "a@x.com"), ("type", "ssn")]]
      [("email", FieldInfo.mk (some [("mask", "[EMAIL]")]))] = .ok "call a@x.com".toList := by
  have hunk : ∀ t, dictGet [("pii", "a@x.com"), ("type", "ssn")] "type" = some t →
      dictGet [("email", FieldInfo.mk (some [("mask", "[EMAIL]")]))] t = none := by
    intro t ht
    have h3 : some "ssn" = some t := ht
    injection h3 with h4
    subst h4; decide
  refine ⟨hunk, ?_⟩
  have h := (mask_pii_skips_unknown_type
    [("email", FieldInfo.mk (some [("mask", "[EMAIL]")]))]
    [("pii", "a@x.com"), ("type", "ssn")] hunk).2 "call a@x.com".toList [] []
  simpa [mask_pii] using h

/-- Claim C9: a finding whose `type` is a schema key whose configured mask
string is the empty string is treated exactly like a missing mask: it is
skipped, and wherever it sits in the findings list the returned text is
unchanged by it. -/
theorem mask_pii_skips_empty_mask (cfg : Config)
    (f : List (String × String)) (t : String) (fi : FieldInfo)
    (extra : List (String × String))
    (ht : dictGet f "type" = some t)
    (hcfg : dictGet cfg t = some fi)
    (hex : fi.json_schema_extra = some extra)
    (hmask : dictGet extra "mask" = some "") :
    (∀ acc, maskStep cfg acc (PyEntry.dict f) = .ok acc) ∧
    ∀ input l1 l2, mask_pii input (l1 ++ PyEntry.dict f :: l2) cfg =
      mask_pii input (l1 ++ l2) cfg := by
  have hstep : ∀ acc, maskStep cfg acc (PyEntry.dict f) = .ok acc := by
    intro acc
    simp only [maskStep, ht]
    cases hv : dictGet f "pii" with
    | none => rfl
    | some v =>
      by_cases hve : v.isEmpty
      · simp [hve]
      · have he : ("" : String).isEmpty = true := rfl
        by_cases hte : t.isEmpty <;> simp [hve, hte, hcfg, hex, hmask, he]
  exact ⟨hstep, fun input l1 l2 => mask_pii_insert_noop cfg _ hstep input l1 l2⟩

/-- Witness for C9 at a concrete schema with an empty-string mask. -/
theorem mask_pii_skips_empty_mask_witness :
    dictGet [("pii", "a@x.com"), ("type", "email")] "type" = some "email" ∧
    dictGet [("email", FieldInfo.mk (some [("mask", "")]))] "email" =
      some (FieldInfo.mk (some [("mask", "")])) ∧
    (FieldInfo.mk (some [("mask", "")])).json_schema_extra = some [("mask", "")] ∧
    dictGet [("mask", "")] "mask" = some "" ∧
    mask_pii "call a@x.com".toList
      [PyEntry.dict [("pii", "a@x.com"), ("type", "email")]]
      [("email", FieldInfo.mk (some [("mask", "")]))] = .ok "call a@x.com".toList := by
  refine ⟨by decide, by decide, by decide, by decide, ?_⟩
  have h := (mask_pii_skips_empty_mask
    [("email", FieldInfo.mk (some [("mask", "")]))] [("pii", "a@x.com"), ("type", "email")]
    "email" (FieldInfo.mk (some [("mask", "")])) [("mask", "")]
    (by decide) (by decide) (by decide) (by decide)).2
    "call a@x.com".toList [] []
  simpa [mask_pii] using h

/-- Claim C10: a findings list containing an element that is not a
dictionary makes the Masking Engine raise, and the exception propagates to
the caller instead of the element being skipped. -/
theorem mask_pii_non_dict_raises (input : List Char) (cfg : Config)
    (l1 l2 : List PyEntry) (tag : String) :
    ∃ msg, mask_pii input (l1 ++ PyEntry.nonDict tag :: l2) cfg = .error msg := by
  rw [mask_pii_append]
  cases mask_pii input l1 cfg with
  | ok t => exact ⟨_, rfl⟩
  | error msg => exact ⟨msg, rfl⟩

/-- `pySplit` always produces at least one piece. -/
theorem pySplit_ne_nil (c : Char) (cs s : List Char) : pySplit c cs s ≠ [] := by
  induction s using pySplit.induct c cs with
  | case1 => simp [pySplit]
  | case2 a s hpre ih => simp [pySplit, hpre]
  | case3 a s hpre hnil ih => simp [pySplit, hpre, hnil]
  | case4 a s hpre piece rest hsplit ih => simp [pySplit, hpre, hsplit]

/-- The first piece of `pySplit` is a prefix of the text. -/
theorem pySplit_head_prefix (c : Char) (cs s : List Char) :
    ∀ p r, pySplit c cs s = p :: r → p <+: s := by
  induction s using pySplit.induct c cs with
  | case1 =>
    intro p r h
    simp only [pySplit] at h
    injection h with h1 h2
    subst h1
    exact List.nil_prefix
  | case2 a s hpre ih =>
    intro p r h
    rw [pySplit, if_pos hpre] at h
    injection h with h1 h2
    subst h1
    exact List.nil_prefix
  | case3 a s hpre hnil ih => exact absurd hnil (pySplit_ne_nil c cs s)
  | case4 a s hpre piece rest hsplit ih =>
    intro p r h
    rw [pySplit, if_neg hpre, hsplit] at h
    injection h with h1 h2
    subst h1
    exact List.cons_prefix_cons.mpr ⟨rfl, ih piece rest hsplit⟩

/-- Joining two pieces whose first starts with a character. -/
theorem intercalate_cons_cons (m : List Char) (a : Char) (p : List Char)
    (r : List (List Char)) :
    List.intercalate m ((a :: p) :: r) = a :: List.intercalate m (p :: r) := by
  cases r <;> simp [List.intercalate, List.intersperse]

/-- Joining with a leading empty piece emits the separator first. -/
theorem intercalate_nil_cons (m q : List Char) (r : List (List Char)) :
    List.intercalate m ([] :: q :: r) = m ++ List.intercalate m (q :: r) := by
  cases r <;> simp [List.intercalate, List.intersperse]

/-- Python replace, characterised: the replaced text is the replacement
string joined between the pieces of the greedy leftmost split. -/
theorem pyReplaceNE_eq_intercalate (c : Char) (cs m s : List Char) :
    pyReplaceNE c cs m s = List.intercalate m (pySplit c cs s) := by
  induction s using pySplit.induct c cs with
  | case1 => simp [pyReplaceNE, pySplit, List.intercalate, List.intersperse]
  | case2 a s hpre ih =>
    rw [pyReplaceNE, pySplit, if_pos hpre, if_pos hpre]
    cases h : pySplit c cs (s.drop cs.length) with
    | nil => exact absurd h (pySplit_ne_nil c cs _)
    | cons q r =>
      rw [intercalate_nil_cons, ← h, ← ih]
  | case3 a s hpre hnil ih => exact absurd hnil (pySplit_ne_nil c cs s)
  | case4 a s hpre piece rest hsplit ih =>
    rw [pyReplaceNE, pySplit, if_neg hpre, if_neg hpre, hsplit,
      intercalate_cons_cons, ← hsplit, ← ih]

/-- No piece of the greedy leftmost split contains an occurrence of the
pattern: the replacement really hits every occurrence. -/
theorem pySplit_pieces_free (c : Char) (cs s : List Char) :
    ∀ piece ∈ pySplit c cs s, containsSeq (c :: cs) piece = false := by
  induction s using pySplit.induct c cs with
  | case1 =>
    intro piece hp
    simp [pySplit] at hp
    rw [hp]
    rfl
  | case2 a s hpre ih =>
    intro piece hp
    rw [pySplit, if_pos hpre] at hp
    rcases List.mem_cons.mp hp with h | h
    · rw [h]; rfl
    · exact ih piece h
  | case3 a s hpre hnil ih => exact absurd hnil (pySplit_ne_nil c cs s)
  | case4 a s hpre piece0 rest hsplit ih =>
    intro piece hp
    rw [pySplit, if_neg hpre, hsplit] at hp
    rcases List.mem_cons.mp hp with h | h
    · rw [h]
      have hfree0 : containsSeq (c :: cs) piece0 = false :=
        ih piece0 (hsplit ▸ List.mem_cons_self piece0 rest)
      have hnp : (c :: cs).isPrefixOf (a :: piece0) = false := by
        cases hb : (c :: cs).isPrefixOf (a :: piece0) with
        | false => rfl
        | true =>
          have h1 : (c :: cs) <+: (a :: piece0) := List.isPrefixOf_iff_prefix.mp hb
          have h2 : piece0 <+: s := pySplit_head_prefix c cs s piece0 rest hsplit
          have h3 : (a :: piece0) <+: (a :: s) := List.cons_prefix_cons.mpr ⟨rfl, h2⟩
          have h4 : (c :: cs).isPrefixOf (a :: s) = true :=
            List.isPrefixOf_iff_prefix.mpr (h1.trans h3)
          exact absurd h4 (by simpa using hpre)
      show ((c :: cs).isPrefixOf (a :: piece0) || containsSeq (c :: cs) piece0) = false
      rw [hnp, hfree0]
      rfl
    · exact ih piece (hsplit ▸ List.mem_cons_of_mem piece0 h)

/-- Claim C1: a finding with non-empty `pii` and `type`, whose `type` is a
schema key carrying a non-empty mask, makes the Masking Engine replace — on
the current accumulating text, findings being processed in list order —
every leftmost occurrence of the literal substring `pii` with the mask:
the step rewrites the accumulated text into the mask joined between the
pieces of the greedy leftmost split along `pii`, and no piece retains an
occurrence of `pii`, so one finding masks all duplicate occurrences in a
single pass. -/
theorem mask_pii_replaces_every_occurrence
    (cfg : Config) (acc : List Char) (rest : List PyEntry)
    (f : List (String × String)) (t v mk : String) (fi : FieldInfo)
    (extra : List (String × String)) (c : Char) (cs : List Char)
    (ht : dictGet f "type" = some t) (hte : t.isEmpty = false)
    (hv : dictGet f "pii" = some v) (hvl : v.toList = c :: cs)
    (hcfg : dictGet cfg t = some fi)
    (hex : fi.json_schema_extra = some extra)
    (hmask : dictGet extra "mask" = some mk)
    (hmke : mk.isEmpty = false) :
    mask_pii acc (PyEntry.dict f :: rest) cfg =
      mask_pii (pyReplace v.toList mk.toList acc) rest cfg
    ∧ pyReplace v.toList mk.toList acc =
        List.intercalate mk.toList (pySplit c cs acc)
    ∧ ∀ piece ∈ pySplit c cs acc, containsSeq (c :: cs) piece = false := by
  have hve : v.isEmpty = false := by
    have hne : v ≠ "" := by intro he; rw [he] at hvl; simp at hvl
    exact Bool.eq_false_iff.mpr (fun hh => hne ((String.isEmpty_iff v).mp hh))
  have hstep : maskStep cfg acc (PyEntry.dict f) =
      .ok (pyReplace v.toList mk.toList acc) := by
    simp [maskStep, ht, hv, hve, hte, hcfg, hex, hmask, hmke]
  refine ⟨?_, ?_, pySplit_pieces_free c cs acc⟩
  · simp [mask_pii, hstep]
  · rw [hvl]
    exact pyReplaceNE_eq_intercalate c cs mk.toList acc

/-- Witness for C1: one finding masks both duplicate occurrences in a
single pass. -/
theorem mask_pii_replaces_every_occurrence_witness :
    dictGet [("pii", "a@x.com"), ("type", "email")] "type" = some "email" ∧
    dictGet [("pii", "a@x.com"), ("type", "email")] "pii" = some "a@x.com" ∧
    ("a@x.com").toList = 'a' :: "@x.com".toList ∧
    mask_pii "a@x.com called a@x.com".toList
        [PyEntry.dict [("pii", "a@x.com"), ("type", "email")]]
        [("email", FieldInfo.mk (some [("mask", "[EMAIL]")]))] =
      mask_pii (pyReplace ("a@x.com").toList ("[EMAIL]").toList
        "a@x.com called a@x.com".toList) []
        [("email", FieldInfo.mk (some [("mask", "[EMAIL]")]))] ∧
    mask_pii "a@x.com called a@x.com".toList
        [PyEntry.dict [("pii", "a@x.com"), ("type", "email")]]
        [("email", FieldInfo.mk (some [("mask", "[EMAIL]")]))] =
      .ok "[EMAIL] called [EMAIL]".toList := by
  have h := mask_pii_replaces_every_occurrence
    [("email", FieldInfo.mk (some [("mask", "[EMAIL]")]))]
    "a@x.com called a@x.com".toList []
    [("pii", "a@x.com"), ("type", "email")]
    "email" "a@x.com" "[EMAIL]" (FieldInfo.mk (some [("mask", "[EMAIL]")]))
    [("mask", "[EMAIL]")] 'a' "@x.com".toList
    (by decide) (by decide) (by decide) (by decide) (by decide) (by decide)
    (by decide) (by decide)
  refine ⟨by decide, by decide, by decide, h.1, ?_⟩
  rw [h.1]
  simp [mask_pii, pyReplace, pyReplaceNE]

/-- Claim C8: for a non-empty schema, the Extraction Prompter's user
instruction is the pure string built by
`get_pii_extraction_instruct_prompt` from the comma-joined category names
in schema iteration order; it embeds the source text verbatim, embeds the
joined category names, states the JSON-array output requirement, and names
the two required keys `pii` and `type`. -/
theorem extract_pii_prompt_embeds (text : List Char) (cfg : Config)
    (hne : cfg ≠ []) :
    ∃ user : List Char,
      extract_pii_prep text cfg =
        .ok ⟨get_pii_identification_system_prompt, user⟩ ∧
      user = get_pii_extraction_instruct_prompt text
        (List.intercalate ", ".toList ((cfg.map Prod.fst).map String.toList)) ∧
      (∃ l r, user = l ++ text ++ r) ∧
      (∃ l r, user = l ++
        List.intercalate ", ".toList ((cfg.map Prod.fst).map String.toList) ++ r) ∧
      (∃ l r, user = l ++
        "For each detected item, output a valid JSON array of objects with two keys:\n".toList
        ++ r) ∧
      (∃ l r, user = l ++ ([singleQuote] ++ "pii".toList ++ [singleQuote]) ++ r) ∧
      (∃ l r, user = l ++ ([singleQuote] ++ "type".toList ++ [singleQuote]) ++ r) := by
  have hie : (cfg.map Prod.fst).isEmpty = false := by
    cases cfg with
    | nil => exact absurd rfl hne
    | cons a l => rfl
  set ts := List.intercalate ", ".toList ((cfg.map Prod.fst).map String.toList)
    with hts
  refine ⟨get_pii_extraction_instruct_prompt text ts, ?_, rfl, ?_, ?_, ?_, ?_, ?_⟩
  · simp [extract_pii_prep, hie, hts]
  · refine ⟨"Extract all substrings from the text below that are personal identifiable information ".toList
      ++ ("of the following types: ".toList ++ ts ++ ". ".toList)
      ++ "For each detected item, output a valid JSON array of objects with two keys:\n".toList
      ++ ("  - ".toList ++ [singleQuote] ++ "pii".toList ++ [singleQuote]
          ++ ": the exact substring detected\n".toList)
      ++ ("  - ".toList ++ [singleQuote] ++ "type".toList ++ [singleQuote]
          ++ ": the PII type (must match one of: ".toList ++ ts ++ ")\n\n".toList)
      ++ "Text: ".toList ++ [singleQuote], [singleQuote],
      by simp only [get_pii_extraction_instruct_prompt, List.append_assoc]⟩
  · refine ⟨"Extract all substrings from the text below that are personal identifiable information ".toList
      ++ "of the following types: ".toList,
      ". ".toList
      ++ "For each detected item, output a valid JSON array of objects with two keys:\n".toList
      ++ ("  - ".toList ++ [singleQuote] ++ "pii".toList ++ [singleQuote]
          ++ ": the exact substring detected\n".toList)
      ++ ("  - ".toList ++ [singleQuote] ++ "type".toList ++ [singleQuote]
          ++ ": the PII type (must match one of: ".toList ++ ts ++ ")\n\n".toList)
      ++ ("Text: ".toList ++ [singleQuote] ++ text ++ [singleQuote]),
      by simp only [get_pii_extraction_instruct_prompt, List.append_assoc]⟩
  · refine ⟨"Extract all substrings from the text below that are personal identifiable information ".toList
      ++ ("of the following types: ".toList ++ ts ++ ". ".toList),
      ("  - ".toList ++ [singleQuote] ++ "pii".toList ++ [singleQuote]
          ++ ": the exact substring detected\n".toList)
      ++ ("  - ".toList ++ [singleQuote] ++ "type".toList ++ [singleQuote]
          ++ ": the PII type (must match one of: ".toList ++ ts ++ ")\n\n".toList)
      ++ ("Text: ".toList ++ [singleQuote] ++ text ++ [singleQuote]),
      by simp only [get_pii_extraction_instruct_prompt, List.append_assoc]⟩
  · refine ⟨"Extract all substrings from the text below that are personal identifiable information ".toList
      ++ ("of the following types: ".toList ++ ts ++ ". ".toList)
      ++ "For each detected item, output a valid JSON array of objects with two keys:\n".toList
      ++ "  - ".toList,
      ": the exact substring detected\n".toList
      ++ ("  - ".toList ++ [singleQuote] ++ "type".toList ++ [singleQuote]
          ++ ": the PII type (must match one of: ".toList ++ ts ++ ")\n\n".toList)
      ++ ("Text: ".toList ++ [singleQuote] ++ text ++ [singleQuote]),
      by simp only [get_pii_extraction_instruct_prompt, List.append_assoc]⟩
  · refine ⟨"Extract all substrings from the text below that are personal identifiable information ".toList
      ++ ("of the following types: ".toList ++ ts ++ ". ".toList)
      ++ "For each detected item, output a valid JSON array of objects with two keys:\n".toList
      ++ ("  - ".toList ++ [singleQuote] ++ "pii".toList ++ [singleQuote]
          ++ ": the exact substring detected\n".toList)
      ++ "  - ".toList,
      ": the PII type (must match one of: ".toList ++ ts ++ ")\n\n".toList
      ++ ("Text: ".toList ++ [singleQuote] ++ text ++ [singleQuote]),
      by simp only [get_pii_extraction_instruct_prompt, List.append_assoc]⟩

/-- Witness for C8 at a two-category schema. -/
theorem extract_pii_prompt_embeds_witness :
    ([("email", FieldInfo.mk (some [("mask", "[EMAIL]")])),
      ("phone", FieldInfo.mk (some [("mask", "[PHONE]")]))] : Config) ≠ [] ∧
    ∃ user : List Char,
      extract_pii_prep "Hi a@x.com".toList
          [("email", FieldInfo.mk (some [("mask", "[EMAIL]")])),
           ("phone", FieldInfo.mk (some [("mask", "[PHONE]")]))] =
        .ok ⟨get_pii_identification_system_prompt, user⟩ ∧
      user = get_pii_extraction_instruct_prompt "Hi a@x.com".toList
        (List.intercalate ", ".toList
          ((([("email", FieldInfo.mk (some [("mask", "[EMAIL]")])),
              ("phone", FieldInfo.mk (some [("mask", "[PHONE]")]))] : Config).map
            Prod.fst).map String.toList)) ∧
      (∃ l r, user = l ++ "Hi a@x.com".toList ++ r) ∧
      (∃ l r, user = l ++
        List.intercalate ", ".toList
          ((([("email", FieldInfo.mk (some [("mask", "[EMAIL]")])),
              ("phone", FieldInfo.mk (some [("mask", "[PHONE]")]))] : Config).map
            Prod.fst).map String.toList) ++ r) ∧
      (∃ l r, user = l ++
        "For each detected item, output a valid JSON array of objects with two keys:\n".toList
        ++ r) ∧
      (∃ l r, user = l ++ ([singleQuote] ++ "pii".toList ++ [singleQuote]) ++ r) ∧
      (∃ l r, user = l ++ ([singleQuote] ++ "type".toList ++ [singleQuote]) ++ r) :=
  ⟨by decide, extract_pii_prompt_embeds "Hi a@x.com".toList _ (by decide)⟩

/-- Counterexample to claim C4: on the empty mapping the Schema Builder
does not fail — `create_dynamic_pii_config` returns a configuration model
with no fields. -/
theorem create_dynamic_pii_config_empty_succeeds :
    create_dynamic_pii_config [] = Except.ok [] ∧
    (create_dynamic_pii_config []).isOk = true :=
  ⟨rfl, rfl⟩

/-- Claim C4 as amended: the Schema Builder itself accepts the empty
mapping, returning a schema with no categories; the empty configuration is
instead rejected with a `ValueError` elsewhere — the HTTP endpoint rejects
an empty `pii_config` before building the schema, and `extract_pii` fails
with "No PII types defined in configuration" on a schema with no fields —
so an empty mapping never reaches a provider call. -/
theorem empty_config_rejected_downstream (texts : List (List Char))
    (text : List Char) :
    create_dynamic_pii_config [] = .ok [] ∧
    extract_pii_prep text [] = .error "No PII types defined in configuration" ∧
    mask_pii_endpoint_prep texts [] = .error "PII configuration cannot be empty" :=
  ⟨rfl, rfl, rfl⟩

/-- Claim C2: the Response Parser decodes the trimmed capture of the first
fenced block when one exists and the trimmed whole text otherwise
(`jsonTarget`), returns the parsed value exactly when that string is valid
JSON, and raises exactly when it is not; in particular the fenced and
unfenced forms of the array of one pii/type object both return that array,
and a non-JSON response raises. -/
theorem parse_json_response_spec :
    (∀ (r : List Char) (v : Json),
        parse_json_response r = .ok v ↔ jsonLoads (jsonTarget r) = some v) ∧
    (∀ r : List Char,
        parse_json_response r = .error "Invalid JSON response" ↔
          jsonLoads (jsonTarget r) = none) ∧
    parse_json_response
        (fence3 ++ "json\n[\x7b\"pii\":\"a\",\"type\":\"b\"\x7d]\n".toList ++ fence3) =
      .ok (Json.arr [Json.obj [("pii".toList, Json.str "a".toList),
                               ("type".toList, Json.str "b".toList)]]) ∧
    parse_json_response "[\x7b\"pii\":\"a\",\"type\":\"b\"\x7d]".toList =
      .ok (Json.arr [Json.obj [("pii".toList, Json.str "a".toList),
                               ("type".toList, Json.str "b".toList)]]) ∧
    parse_json_response "not json".toList = .error "Invalid JSON response" := by
  refine ⟨?_, ?_, rfl, rfl, rfl⟩
  · intro r v
    unfold parse_json_response
    cases h : jsonLoads (jsonTarget r) <;> simp
  · intro r
    unfold parse_json_response
    cases h : jsonLoads (jsonTarget r) <;> simp

end PiiMasking
